import Mathlib

/-!
Verification of the PATCH /items/:id subsystem.

Shallow embedding of:
- `internal/usecase/service.go` (`PatchItem`, `validateUpdateRequest`, the
  length/price constants),
- the items controller (`parseItemID`, `parseValidationErrorDetails`,
  `checkImmutableFields`, `PatchItem` handler),
- the Go standard-library routines they call (`strconv.ParseInt`,
  `strings.Split`, `strings.SplitN`, `strings.Join`, `strings.Contains`,
  `encoding/json` generic and typed decoding), restricted to the behaviour
  observable through this subsystem.

Strings are modelled as lists of characters; Go `len` on the ASCII data
involved coincides with list length.  Go map iteration order is
unspecified, so every place the code ranges over a map takes the iteration
order as an explicit parameter constrained to be a permutation of the
map's entries.
-/

namespace AiconPatch

abbrev Str := List Char

def toL (s : String) : Str := s.toList

/-- Generic JSON values, the image of `encoding/json` decoding into
`map[string]interface{}` and friends.  Numbers are restricted to the
integral numbers exercised by this subsystem. -/
inductive JSON where
  | null
  | boolVal (b : Bool)
  | num (n : Int)
  | str (s : Str)
  | arr (elems : List JSON)
  | obj (fields : List (Str × JSON))

/-- Key lookup in a decoded JSON object (a Go map has unique keys, so the
association list is looked up by first match). -/
def jsonLookup : List (Str × JSON) → Str → Option JSON
  | [], _ => none
  | (k, v) :: rest, key => if k = key then some v else jsonLookup rest key

/-- `_, exists := requestBody[field]` on the decoded generic map. -/
def hasKey (fields : List (Str × JSON)) (k : Str) : Bool :=
  (jsonLookup fields k).isSome

/-- The `immutableFields` map literal of `checkImmutableFields`, in
declaration order: `id`, `created_at`, `updated_at`. -/
def immutableFieldsList : List (Str × Str) :=
  [(toL "id", toL "id is immutable"),
   (toL "created_at", toL "created_at is immutable"),
   (toL "updated_at", toL "updated_at is immutable")]

/-- `checkImmutableFields` from the controller.  The Go code ranges over
the `immutableFields` map; `iter` is the iteration order the runtime
happens to pick (some permutation of `immutableFieldsList`). -/
def checkImmutableFields (iter : List (Str × Str))
    (requestBody : List (Str × JSON)) : List Str :=
  (iter.filter (fun p => hasKey requestBody p.1)).map (fun p => p.2)

/-- `usecase.UpdateItemRequest`: three tri-state fields (`nil` pointer =
absent). -/
structure UpdateItemRequest where
  name : Option Str
  brand : Option Str
  purchasePrice : Option Int
deriving DecidableEq

/-- `json.Unmarshal` of one JSON value into a `*string` struct field:
absent key or `null` leaves the pointer nil, a string sets it, any other
value is a type error. -/
def bindStrField : Option JSON → Option (Option Str)
  | none => some none
  | some JSON.null => some none
  | some (JSON.str s) => some (some s)
  | some _ => none

/-- `json.Unmarshal` of one JSON value into a `*int` struct field:
absent key or `null` leaves the pointer nil; a number sets it when it
fits Go's 64-bit `int` (the decoder re-parses the literal with
`strconv.ParseInt(s, 10, 64)` and reports an `UnmarshalTypeError` for a
value outside that range); any other value is a type error. -/
def bindIntField : Option JSON → Option (Option Int)
  | none => some none
  | some JSON.null => some none
  | some (JSON.num n) =>
    if -(2 ^ 63) ≤ n ∧ n ≤ 2 ^ 63 - 1 then some (some n) else none
  | some _ => none

/-- The controller's second decode pass: `json.Marshal(requestBody)`
followed by `json.Unmarshal(bodyBytes, &req)`.  Re-marshalling a decoded
map cannot fail, so the composite is typed binding of the three mutable
fields; unknown keys are ignored. -/
def bindUpdateItemRequest (fields : List (Str × JSON)) :
    Option UpdateItemRequest :=
  match bindStrField (jsonLookup fields (toL "name")),
        bindStrField (jsonLookup fields (toL "brand")),
        bindIntField (jsonLookup fields (toL "purchase_price")) with
  | some n, some b, some p => some ⟨n, b, p⟩
  | _, _, _ => none

/-- Modelled from the spec: `entity.Item` (package
`internal/domain/entity` is not under src/).  Per spec §3 the persisted
entity has `id`, `name`, `category`, `brand`, `purchase_price`,
`purchase_date`, `created_at`, `updated_at`; timestamps are abstract
instants. -/
structure Item where
  id : Int
  name : Str
  category : Str
  brand : Str
  purchasePrice : Int
  purchaseDate : Str
  createdAt : Nat
  updatedAt : Nat
deriving DecidableEq

def maxNameLength : Nat := 100
def maxBrandLength : Nat := 100
def minPrice : Int := 0

/-- The `req.Name != nil` block of `validateUpdateRequest`
(`service.go` lines 200-206), on the merged item. -/
def nameCheck (req : UpdateItemRequest) (item : Item) : List Str :=
  match req.name with
  | none => []
  | some _ =>
    if item.name = [] then [toL "name is required"]
    else if maxNameLength < item.name.length then
      [toL "name must be 100 characters or less"]
    else []

/-- The `req.Brand != nil` block (`service.go` lines 208-214). -/
def brandCheck (req : UpdateItemRequest) (item : Item) : List Str :=
  match req.brand with
  | none => []
  | some _ =>
    if item.brand = [] then [toL "brand is required"]
    else if maxBrandLength < item.brand.length then
      [toL "brand must be 100 characters or less"]
    else []

/-- The `req.PurchasePrice != nil` block (`service.go` lines 216-220). -/
def priceCheck (req : UpdateItemRequest) (item : Item) : List Str :=
  match req.purchasePrice with
  | none => []
  | some _ =>
    if item.purchasePrice < minPrice then [toL "purchase_price must be >= 0"]
    else []

/-- `validateUpdateRequest` from `service.go` lines 197-223: the three
blocks append their violations to one slice in sequence. -/
def validateUpdateRequest (req : UpdateItemRequest) (item : Item) :
    List Str :=
  nameCheck req item ++ brandCheck req item ++ priceCheck req item

/-- The merge step of `PatchItem` (`service.go` lines 138-150): overwrite
each present mutable field and stamp `updated_at` with the current
time. -/
def applyPatch (req : UpdateItemRequest) (item : Item) (now : Nat) : Item :=
  { item with
    name := req.name.getD item.name
    brand := req.brand.getD item.brand
    purchasePrice := req.purchasePrice.getD item.purchasePrice
    updatedAt := now }

/-- `strings.Join` for a non-empty separator. -/
def joinSep (sep : Str) : List Str → Str
  | [] => []
  | [x] => x
  | x :: y :: xs => x ++ sep ++ joinSep sep (y :: xs)

/-- `strings.Split` with the two-character separator `[a, b]`: cut around
each leftmost non-overlapping occurrence. -/
def split2 (a b : Char) : Str → List Str
  | [] => [[]]
  | [c] => [[c]]
  | c :: d :: rest =>
    if c = a ∧ d = b then [] :: split2 a b rest
    else
      match split2 a b (d :: rest) with
      | [] => [[c]]
      | x :: xs => (c :: x) :: xs

/-- `strings.Contains` with the two-character pattern `[a, b]`. -/
def containsSeq2 (a b : Char) : Str → Bool
  | [] => false
  | [_] => false
  | c :: d :: rest => (c = a && d = b) || containsSeq2 a b (d :: rest)

/-- `strings.SplitN(s, sep, 2)` with the two-character separator
`[a, b]`: at most one cut, at the first occurrence. -/
def splitN2 (a b : Char) (s : Str) : List Str :=
  match split2 a b s with
  | [] => [s]
  | [x] => [x]
  | x :: xs => [x, joinSep [a, b] xs]

/-- `parseValidationErrorDetails` from the controller: split the wrapped
error string at the first `": "` and then split the remainder on
`", "`. -/
def parseValidationErrorDetails (errStr : Str) : List Str :=
  if containsSeq2 ':' ' ' errStr then
    match splitN2 ':' ' ' errStr with
    | [_, tail] => split2 ',' ' ' tail
    | _ => [errStr]
  else [errStr]

/-- Modelled from the spec: the message of
`domainErrors.ErrInvalidInput` (package `internal/domain/errors` is not
under src/).  Spec §7 names the kind `ValidationError`; the controller
tests recover the bare reason list from the wrapped string, which pins
the sentinel to contain no `": "`. -/
def errInvalidInputStr : Str := toL "invalid input"

/-- The error string built by `PatchItem` line 154:
`fmt.Errorf("%w: %s", domainErrors.ErrInvalidInput,
strings.Join(validationErrors, ", "))`. -/
def wrapValidation (msgs : List Str) : Str :=
  errInvalidInputStr ++ toL ": " ++ joinSep (toL ", ") msgs

/-- Modelled from the spec: the domain error taxonomy (§7), as classified
by `IsNotFoundError` / `IsValidationError`; each error carries its
`Error()` string where the controller inspects it. -/
inductive GoErr where
  | validation (msg : Str)
  | notFoundErr
  | internalErr (msg : Str)
deriving DecidableEq

/-- Outcome of one storage-collaborator call (spec §6: `Entity | NotFound
| Error`). -/
inductive RepoResult where
  | ok (item : Item)
  | notFound
  | failure
deriving DecidableEq

/-- The storage repository collaborator, specified only at its boundary. -/
structure Repo where
  findByID : Int → RepoResult
  update : Item → RepoResult

/-- Observable calls made to the storage collaborator. -/
inductive RepoEvent where
  | fetch (id : Int)
  | store (item : Item)
deriving DecidableEq

/-- `itemUsecase.PatchItem` (`service.go` lines 124-167), returning the
result together with the trace of storage calls. -/
def patchItem (repo : Repo) (now : Nat) (id : Int)
    (req : UpdateItemRequest) : Except GoErr Item × List RepoEvent :=
  if id ≤ 0 then (Except.error (GoErr.validation errInvalidInputStr), [])
  else
    match repo.findByID id with
    | RepoResult.notFound => (Except.error GoErr.notFoundErr, [RepoEvent.fetch id])
    | RepoResult.failure =>
      (Except.error (GoErr.internalErr (toL "failed to retrieve item")),
       [RepoEvent.fetch id])
    | RepoResult.ok item =>
      let merged := applyPatch req item now
      match validateUpdateRequest req merged with
      | [] =>
        match repo.update merged with
        | RepoResult.notFound =>
          (Except.error GoErr.notFoundErr,
           [RepoEvent.fetch id, RepoEvent.store merged])
        | RepoResult.failure =>
          (Except.error (GoErr.internalErr (toL "failed to update item")),
           [RepoEvent.fetch id, RepoEvent.store merged])
        | RepoResult.ok updated =>
          (Except.ok updated, [RepoEvent.fetch id, RepoEvent.store merged])
      | e :: rest =>
        (Except.error (GoErr.validation (wrapValidation (e :: rest))),
         [RepoEvent.fetch id])

def digitVal (c : Char) : Nat := c.toNat - 48

def maxUint64 : Nat := 2 ^ 64 - 1

/-- `strconv`'s base-10 cutoff for 64-bit parsing: the smallest `n` with
`n * 10 > maxUint64`. -/
def cutoff10 : Nat := maxUint64 / 10 + 1

/-- The digit-accumulation loop of `strconv.ParseUint(s, 10, 64)`: fails
on a non-digit character or when the accumulated value would exceed the
64-bit range. -/
def parseUint64Loop : Str → Nat → Option Nat
  | [], n => some n
  | c :: rest, n =>
    if c.isDigit then
      if cutoff10 ≤ n then none
      else
        let n1 := n * 10 + digitVal c
        if maxUint64 < n1 then none
        else parseUint64Loop rest n1
    else none

/-- The sign handling at the top of `strconv.ParseInt`: strip one leading
`+` or `-`, remembering whether the value is negated. -/
def signSplit : Str → Bool × Str
  | [] => (false, [])
  | c :: rest =>
    if c = '-' then (true, rest)
    else if c = '+' then (false, rest)
    else (false, c :: rest)

/-- `strconv.ParseInt(s, 10, 64)`: optional sign, non-empty digit run,
signed 64-bit range check (`un >= 1<<63` positive, `un > 1<<63`
negative). -/
def parseInt64 (s : Str) : Option Int :=
  match s with
  | [] => none
  | _ =>
    let p := signSplit s
    match p.2 with
    | [] => none
    | _ =>
      match parseUint64Loop p.2 0 with
      | none => none
      | some un =>
        if p.1 then
          if 2 ^ 63 < un then none else some (-(un : Int))
        else
          if 2 ^ 63 ≤ un then none else some (un : Int)

/-- `parseItemID` from the controller: empty parameter is rejected, then
`strconv.ParseInt(idStr, 10, 64)`. -/
def parseItemID (idStr : Str) : Option Int :=
  if idStr = [] then none else parseInt64 idStr

/-- `json.NewDecoder(body).Decode(&requestBody)` into
`map[string]interface{}`: malformed text or a non-object, non-null value
is an error; JSON `null` decodes into a nil map with no error, which the
rest of the pipeline observes as an empty map. -/
def decodeBodyMap : Option JSON → Option (List (Str × JSON))
  | none => none
  | some (JSON.obj fields) => some fields
  | some JSON.null => some []
  | some _ => none

/-- The controller's `ErrorResponse`; an empty `details` list is the
omitted `omitempty` field. -/
structure ErrorBody where
  error : Str
  details : List Str
deriving DecidableEq

/-- One transport-level response. -/
inductive HResponse where
  | ok (status : Nat) (item : Item)
  | err (status : Nat) (body : ErrorBody)
deriving DecidableEq

/-- The controller's error ladder after calling the usecase:
`IsNotFoundError` → 404, `IsValidationError` → 400 with parsed details,
otherwise 500. -/
def renderPatchResult : Except GoErr Item → HResponse
  | Except.ok item => HResponse.ok 200 item
  | Except.error GoErr.notFoundErr =>
    HResponse.err 404 ⟨toL "item not found", []⟩
  | Except.error (GoErr.validation msg) =>
    HResponse.err 400 ⟨toL "validation failed", parseValidationErrorDetails msg⟩
  | Except.error (GoErr.internalErr _) =>
    HResponse.err 500 ⟨toL "failed to update item", []⟩

/-- `ItemHandler.PatchItem`: parse the id, decode the generic map, guard
immutable fields, bind the typed request, call the usecase, translate the
outcome.  `iter` is the runtime's iteration order over the
`immutableFields` map; `body` is `none` when the request body is not
well-formed JSON. -/
def handlerPatchItem (repo : Repo) (now : Nat) (iter : List (Str × Str))
    (idStr : Str) (body : Option JSON) : HResponse × List RepoEvent :=
  match parseItemID idStr with
  | none => (HResponse.err 400 ⟨toL "invalid item ID", []⟩, [])
  | some id =>
    match decodeBodyMap body with
    | none => (HResponse.err 400 ⟨toL "invalid request format", []⟩, [])
    | some fields =>
      match checkImmutableFields iter fields with
      | e :: rest =>
        (HResponse.err 400 ⟨toL "validation failed", e :: rest⟩, [])
      | [] =>
        match bindUpdateItemRequest fields with
        | none => (HResponse.err 400 ⟨toL "invalid request format", []⟩, [])
        | some req =>
          let r := patchItem repo now id req
          (renderPatchResult r.1, r.2)

/-- Spec-side restatement of §4.4's `name` rule, phrased on the request
value itself (used to compare against the code, which checks the merged
entity). -/
def specNameViolations (req : UpdateItemRequest) : List Str :=
  match req.name with
  | none => []
  | some v =>
    if v = [] then [toL "name is required"]
    else if 100 < v.length then [toL "name must be 100 characters or less"]
    else []

/-- Spec-side restatement of §4.4's `brand` rule. -/
def specBrandViolations (req : UpdateItemRequest) : List Str :=
  match req.brand with
  | none => []
  | some v =>
    if v = [] then [toL "brand is required"]
    else if 100 < v.length then [toL "brand must be 100 characters or less"]
    else []

/-- Spec-side restatement of §4.4's `purchase_price` rule. -/
def specPriceViolations (req : UpdateItemRequest) : List Str :=
  match req.purchasePrice with
  | none => []
  | some p => if p < 0 then [toL "purchase_price must be >= 0"] else []

def foldVal (n : Nat) (ds : Str) : Nat :=
  ds.foldl (fun m c => m * 10 + digitVal c) n

/-- Mathematical value of a digit string. -/
def natVal (ds : Str) : Nat := foldVal 0 ds

/-- Spec-side predicate for the amended C5: the identifier is an
optionally signed base-10 numeral whose value fits a signed 64-bit
integer. -/
def isBase10Int64 (s : Str) : Bool :=
  match s with
  | [] => false
  | _ =>
    let p := signSplit s
    !p.2.isEmpty && p.2.all Char.isDigit &&
      (if p.1 then decide (natVal p.2 ≤ 2 ^ 63)
       else decide (natVal p.2 + 1 ≤ 2 ^ 63))

/-- A repository that is never reached in the guard-path scenarios. -/
def trivialRepo : Repo :=
  ⟨fun _ => RepoResult.notFound, fun _ => RepoResult.notFound⟩

/-- Concrete stored entity for witnesses. -/
def wItem : Item :=
  { id := 1, name := toL "A", category := toL "watch", brand := toL "B",
    purchasePrice := 100, purchaseDate := toL "2023-01-01",
    createdAt := 3, updatedAt := 4 }

/-- Repository holding `wItem` at id 1, whose update echoes the stored
entity. -/
def wRepo : Repo :=
  ⟨fun i => if i = 1 then RepoResult.ok wItem else RepoResult.notFound,
   fun it => RepoResult.ok it⟩

/-- Repository whose persist step fails with a non-not-found error. -/
def failRepo : Repo :=
  ⟨fun i => if i = 1 then RepoResult.ok wItem else RepoResult.failure,
   fun _ => RepoResult.failure⟩

/-- The five messages `validateUpdateRequest` can emit. -/
def allValidationMsgs : List Str :=
  [toL "name is required", toL "name must be 100 characters or less",
   toL "brand is required", toL "brand must be 100 characters or less",
   toL "purchase_price must be >= 0"]

/-- The request body of the spec's multiple-immutable-fields example:
`{"id":999,"created_at":"2023-01-01T00:00:00Z","name":"Updated Name"}`. -/
def c1Body : List (Str × JSON) :=
  [(toL "id", JSON.num 999),
   (toL "created_at", JSON.str (toL "2023-01-01T00:00:00Z")),
   (toL "name", JSON.str (toL "Updated Name"))]

/-- A map iteration order the Go runtime may pick that visits
`created_at` before `id`. -/
def c1AltIter : List (Str × Str) :=
  [(toL "created_at", toL "created_at is immutable"),
   (toL "id", toL "id is immutable"),
   (toL "updated_at", toL "updated_at is immutable")]

/-- A stored entity with an empty name, to exercise a failing
validation. -/
def wBadItem : Item :=
  { id := 1, name := [], category := toL "watch", brand := toL "B",
    purchasePrice := 100, purchaseDate := toL "2023-01-01",
    createdAt := 3, updatedAt := 4 }

/-! ### Helper lemmas: the validator's message vocabulary -/

theorem mem_nameCheck {m : Str} {req : UpdateItemRequest} {item : Item}
    (h : m ∈ nameCheck req item) :
    m = toL "name is required" ∨ m = toL "name must be 100 characters or less" := by
  cases hn : req.name with
  | none => simp [nameCheck, hn] at h
  | some v =>
    simp only [nameCheck, hn] at h
    split at h
    · simp_all
    · split at h
      · simp_all
      · simp at h

theorem mem_brandCheck {m : Str} {req : UpdateItemRequest} {item : Item}
    (h : m ∈ brandCheck req item) :
    m = toL "brand is required" ∨ m = toL "brand must be 100 characters or less" := by
  cases hb : req.brand with
  | none => simp [brandCheck, hb] at h
  | some v =>
    simp only [brandCheck, hb] at h
    split at h
    · simp_all
    · split at h
      · simp_all
      · simp at h

theorem mem_priceCheck {m : Str} {req : UpdateItemRequest} {item : Item}
    (h : m ∈ priceCheck req item) :
    m = toL "purchase_price must be >= 0" := by
  cases hp : req.purchasePrice with
  | none => simp [priceCheck, hp] at h
  | some v =>
    simp only [priceCheck, hp] at h
    split at h
    · simp_all
    · simp at h

theorem nameCheck_applyPatch (req : UpdateItemRequest) (item : Item) (now : Nat) :
    nameCheck req (applyPatch req item now) = specNameViolations req := by
  cases hn : req.name <;>
    simp [nameCheck, specNameViolations, applyPatch, hn, maxNameLength]

theorem brandCheck_applyPatch (req : UpdateItemRequest) (item : Item) (now : Nat) :
    brandCheck req (applyPatch req item now) = specBrandViolations req := by
  cases hb : req.brand <;>
    simp [brandCheck, specBrandViolations, applyPatch, hb, maxBrandLength]

theorem priceCheck_applyPatch (req : UpdateItemRequest) (item : Item) (now : Nat) :
    priceCheck req (applyPatch req item now) = specPriceViolations req := by
  cases hp : req.purchasePrice <;>
    simp [priceCheck, specPriceViolations, applyPatch, hp, minPrice]

/-- The code's validator, run on the merged entity, computes exactly the
spec's request-scoped rule segments in the fixed order name, brand,
purchase_price. -/
theorem validate_applyPatch (req : UpdateItemRequest) (item : Item) (now : Nat) :
    validateUpdateRequest req (applyPatch req item now) =
      specNameViolations req ++ specBrandViolations req ++ specPriceViolations req := by
  rw [validateUpdateRequest, nameCheck_applyPatch, brandCheck_applyPatch,
    priceCheck_applyPatch]

theorem validate_msgs_mem (req : UpdateItemRequest) (item : Item) :
    ∀ m ∈ validateUpdateRequest req item, m ∈ allValidationMsgs := by
  intro m hm
  simp only [validateUpdateRequest, List.mem_append] at hm
  rcases hm with (h | h) | h
  · rcases mem_nameCheck h with h' | h' <;> simp [allValidationMsgs, h']
  · rcases mem_brandCheck h with h' | h' <;> simp [allValidationMsgs, h']
  · simp [allValidationMsgs, mem_priceCheck h]

/-! ### Helper lemmas: Go string splitting and joining -/

theorem split2_no_sep (a b : Char) :
    ∀ m : Str, (∀ c ∈ m, c ≠ a) → split2 a b m = [m] := by
  intro m
  induction m with
  | nil => intro _; rfl
  | cons c m ih =>
    intro hm
    cases m with
    | nil => rfl
    | cons d m' =>
      have hc : c ≠ a := hm c (List.mem_cons_self _ _)
      have ih' := ih (fun x hx => hm x (List.mem_cons_of_mem _ hx))
      simp [split2, hc, ih']

theorem split2_append_sep (a b : Char) (t : Str) :
    ∀ m : Str, (∀ c ∈ m, c ≠ a) →
      split2 a b (m ++ a :: b :: t) = m :: split2 a b t := by
  intro m
  induction m with
  | nil => intro _; simp [split2]
  | cons c m ih =>
    intro hm
    have hc : c ≠ a := hm c (List.mem_cons_self _ _)
    have ih' := ih (fun x hx => hm x (List.mem_cons_of_mem _ hx))
    cases m with
    | nil => simp [split2, hc]
    | cons d m' =>
      simp only [List.cons_append] at ih' ⊢
      simp [split2, hc, ih']

theorem split2_joinSep (a b : Char) :
    ∀ l : List Str, l ≠ [] → (∀ m ∈ l, ∀ c ∈ m, c ≠ a) →
      split2 a b (joinSep [a, b] l) = l := by
  intro l
  induction l with
  | nil => intro h _; exact absurd rfl h
  | cons x l ih =>
    intro _ hl
    cases l with
    | nil => exact split2_no_sep a b x (hl x (List.mem_cons_self _ _))
    | cons y l' =>
      have h2 := ih (by simp) (fun m hm c hc =>
        hl m (List.mem_cons_of_mem _ hm) c hc)
      have h1 := split2_append_sep a b (joinSep [a, b] (y :: l')) x
        (fun c hc => hl x (List.mem_cons_self _ _) c hc)
      simp only [joinSep]
      rw [show x ++ [a, b] ++ joinSep [a, b] (y :: l') =
            x ++ a :: b :: joinSep [a, b] (y :: l') by simp]
      rw [h1, h2]

theorem containsSeq2_append (a b : Char) (t : Str) :
    ∀ pre : Str, containsSeq2 a b (pre ++ a :: b :: t) = true := by
  intro pre
  induction pre with
  | nil => simp [containsSeq2]
  | cons c pre ih =>
    cases pre with
    | nil => simp_all [containsSeq2]
    | cons d pre' =>
      simp only [List.cons_append] at ih ⊢
      simp [containsSeq2, ih]

theorem joinSep_chars (sep : Str) :
    ∀ (l : List Str) (c : Char), c ∈ joinSep sep l →
      c ∈ sep ∨ ∃ m ∈ l, c ∈ m := by
  intro l
  induction l with
  | nil => intro c hc; simp [joinSep] at hc
  | cons x l ih =>
    intro c hc
    cases l with
    | nil =>
      exact Or.inr ⟨x, List.mem_cons_self _ _, hc⟩
    | cons y l' =>
      simp only [joinSep, List.mem_append] at hc
      rcases hc with (h | h) | h
      · exact Or.inr ⟨x, List.mem_cons_self _ _, h⟩
      · exact Or.inl h
      · rcases ih c h with h' | ⟨m, hm, hcm⟩
        · exact Or.inl h'
        · exact Or.inr ⟨m, List.mem_cons_of_mem _ hm, hcm⟩

theorem parseDetails_wrap (pre tail : Str)
    (hpre : ∀ c ∈ pre, c ≠ ':') (htail : ∀ c ∈ tail, c ≠ ':') :
    parseValidationErrorDetails (pre ++ ':' :: ' ' :: tail) =
      split2 ',' ' ' tail := by
  have hc := containsSeq2_append ':' ' ' tail pre
  have h1 := split2_append_sep ':' ' ' tail pre hpre
  have h2 := split2_no_sep ':' ' ' tail htail
  simp [parseValidationErrorDetails, hc, splitN2, h1, h2, joinSep]

theorem allValidationMsgs_chars :
    ∀ m ∈ allValidationMsgs, ∀ c ∈ m, c ≠ ',' ∧ c ≠ ':' := by decide

/-- Round trip: joining validator messages behind the `invalid input`
sentinel and re-splitting in the controller recovers the original list. -/
theorem roundTrip_validation (l : List Str) (hne : l ≠ [])
    (hmem : ∀ m ∈ l, m ∈ allValidationMsgs) :
    parseValidationErrorDetails (wrapValidation l) = l := by
  have htail : ∀ c ∈ joinSep (toL ", ") l, c ≠ ':' := by
    intro c hcj
    rcases joinSep_chars _ l c hcj with hs | ⟨m, hm, hcm⟩
    · intro h; subst h; revert hs; decide
    · exact (allValidationMsgs_chars m (hmem m hm) c hcm).2
  have hpre : ∀ c ∈ errInvalidInputStr, c ≠ ':' := by decide
  have hshape : wrapValidation l =
      errInvalidInputStr ++ ':' :: ' ' :: joinSep (toL ", ") l := by
    simp [wrapValidation, toL]
  rw [hshape, parseDetails_wrap _ _ hpre htail]
  have : toL ", " = [',', ' '] := rfl
  rw [this]
  exact split2_joinSep ',' ' ' l hne
    (fun m hm c hc => (allValidationMsgs_chars m (hmem m hm) c hc).1)

/-! ### Helper lemmas: `strconv.ParseInt` -/

theorem foldVal_cons (n : Nat) (c : Char) (rest : Str) :
    foldVal n (c :: rest) = foldVal (n * 10 + digitVal c) rest := rfl

theorem foldVal_le (ds : Str) : ∀ n : Nat, n ≤ foldVal n ds := by
  induction ds with
  | nil => intro n; simp [foldVal]
  | cons c rest ih =>
    intro n
    have h := ih (n * 10 + digitVal c)
    rw [foldVal_cons]
    omega

theorem cutoff10_mul : maxUint64 < cutoff10 * 10 := by decide

/-- The accumulation loop succeeds exactly on all-digit strings whose
value (from accumulator `n`) stays within the unsigned 64-bit range, and
then computes that value. -/
theorem parseUint64Loop_eq :
    ∀ (ds : Str) (n : Nat), n ≤ maxUint64 →
      parseUint64Loop ds n =
        if ds.all Char.isDigit ∧ foldVal n ds ≤ maxUint64
        then some (foldVal n ds) else none := by
  intro ds
  induction ds with
  | nil => intro n hn; simp [parseUint64Loop, foldVal, hn]
  | cons c rest ih =>
    intro n hn
    by_cases hd : c.isDigit
    · by_cases hcut : cutoff10 ≤ n
      · have h1 : n * 10 + digitVal c ≤ foldVal n (c :: rest) := by
          rw [foldVal_cons]; exact foldVal_le rest _
        have h2 : cutoff10 * 10 ≤ n * 10 := Nat.mul_le_mul_right 10 hcut
        have hfold : maxUint64 < foldVal n (c :: rest) := by
          have := cutoff10_mul; omega
        simp only [parseUint64Loop, hd, if_true, hcut]
        rw [if_neg (by omega)]
      · by_cases hov : maxUint64 < n * 10 + digitVal c
        · have h1 : n * 10 + digitVal c ≤ foldVal n (c :: rest) := by
            rw [foldVal_cons]; exact foldVal_le rest _
          simp only [parseUint64Loop, hd, if_true, hcut, if_false, hov]
          rw [if_neg (by omega)]
        · have := ih (n * 10 + digitVal c) (by omega)
          simp only [parseUint64Loop, hd, if_true, hcut, if_false, hov, this,
            List.all_cons, foldVal_cons, Bool.and_eq_true, decide_eq_true_eq]
          by_cases hrest : rest.all Char.isDigit = true <;>
            simp [hrest, hd]
    · simp [parseUint64Loop, hd, List.all_cons]

theorem pow63_lit : (2 : ℕ) ^ 63 = 9223372036854775808 := by norm_num

theorem maxUint64_lit : maxUint64 = 18446744073709551615 := by decide

/-- The parser accepts exactly the optionally signed base-10 numerals
whose value fits in a signed 64-bit integer. -/
theorem parseInt64_isSome (s : Str) :
    (parseInt64 s).isSome = isBase10Int64 s := by
  cases s with
  | nil => rfl
  | cons c rest =>
    rcases hss : signSplit (c :: rest) with ⟨neg, ds⟩
    simp only [parseInt64, isBase10Int64, hss]
    cases ds with
    | nil => cases neg <;> rfl
    | cons d ds' =>
      have hnv : foldVal 0 (d :: ds') = natVal (d :: ds') := rfl
      rw [parseUint64Loop_eq _ 0 (Nat.zero_le _), hnv]
      simp only [pow63_lit]
      by_cases hall : (d :: ds').all Char.isDigit
      · by_cases hle : natVal (d :: ds') ≤ maxUint64
        · rw [if_pos ⟨hall, hle⟩]
          cases neg with
          | false =>
            by_cases hge : 9223372036854775808 ≤ natVal (d :: ds')
            · simp [hge, hall,
                show ¬ (natVal (d :: ds') + 1 ≤ 9223372036854775808) from by omega]
            · simp [hge, hall,
                show natVal (d :: ds') + 1 ≤ 9223372036854775808 from by omega]
          | true =>
            by_cases hgt : 9223372036854775808 < natVal (d :: ds')
            · simp [hgt, hall,
                show ¬ (natVal (d :: ds') ≤ 9223372036854775808) from by omega]
            · simp [hgt, hall,
                show natVal (d :: ds') ≤ 9223372036854775808 from by omega]
        · rw [if_neg (fun hcon => hle hcon.2)]
          rw [maxUint64_lit] at hle
          cases neg with
          | false =>
            simp [hall,
              show ¬ (natVal (d :: ds') + 1 ≤ 9223372036854775808) from by omega]
          | true =>
            simp [hall,
              show ¬ (natVal (d :: ds') ≤ 9223372036854775808) from by omega]
      · rw [if_neg (fun hcon => hall hcon.1)]
        cases neg <;> simp [hall]

theorem parseItemID_isSome (s : Str) :
    (parseItemID s).isSome = isBase10Int64 s := by
  cases s with
  | nil => rfl
  | cons c rest =>
    rw [show parseItemID (c :: rest) = parseInt64 (c :: rest) by
      simp [parseItemID]]
    exact parseInt64_isSome _

/-! ### Helper lemmas: the immutable-field guard and the handler -/

theorem checkImmutable_eq_nil {iter : List (Str × Str)}
    {fields : List (Str × JSON)}
    (hperm : iter.Perm immutableFieldsList)
    (h1 : hasKey fields (toL "id") = false)
    (h2 : hasKey fields (toL "created_at") = false)
    (h3 : hasKey fields (toL "updated_at") = false) :
    checkImmutableFields iter fields = [] := by
  unfold checkImmutableFields
  rw [List.map_eq_nil_iff, List.filter_eq_nil_iff]
  intro p hp
  have hmem := hperm.mem_iff.mp hp
  simp only [immutableFieldsList, List.mem_cons, List.not_mem_nil,
    or_false] at hmem
  rcases hmem with h | h | h <;> subst h <;> simp [h1, h2, h3]

theorem checkImmutable_ne_nil {iter : List (Str × Str)}
    {fields : List (Str × JSON)} {k msg : Str}
    (hperm : iter.Perm immutableFieldsList)
    (hmem : (k, msg) ∈ immutableFieldsList)
    (hk : hasKey fields k = true) :
    checkImmutableFields iter fields ≠ [] := by
  have hin : (k, msg) ∈ iter := hperm.mem_iff.mpr hmem
  intro h
  unfold checkImmutableFields at h
  rw [List.map_eq_nil_iff, List.filter_eq_nil_iff] at h
  exact h _ hin (by simp [hk])

theorem valfail_ne_invalidID :
    toL "validation failed" ≠ toL "invalid item ID" := by decide

theorem renderPatchResult_ne_invalidID (r : Except GoErr Item) :
    renderPatchResult r ≠ HResponse.err 400 ⟨toL "invalid item ID", []⟩ := by
  cases r with
  | ok item => simp [renderPatchResult]
  | error e => cases e <;> simp [renderPatchResult, valfail_ne_invalidID]

/-- Once the identifier has parsed, no later stage can produce the
`invalid item ID` response. -/
theorem handler_ne_invalidID {repo : Repo} {now : Nat}
    {iter : List (Str × Str)} {idStr : Str} {body : Option JSON} {id : Int}
    (hid : parseItemID idStr = some id) :
    (handlerPatchItem repo now iter idStr body).1 ≠
      HResponse.err 400 ⟨toL "invalid item ID", []⟩ := by
  simp only [handlerPatchItem, hid]
  cases hdec : decodeBodyMap body with
  | none =>
    simp [show toL "invalid request format" ≠ toL "invalid item ID" from
      by decide]
  | some fields =>
    cases himm : checkImmutableFields iter fields with
    | cons e rest => simp [himm, valfail_ne_invalidID]
    | nil =>
      cases hbind : bindUpdateItemRequest fields with
      | none =>
        simp [himm, hbind,
          show toL "invalid request format" ≠ toL "invalid item ID" from
            by decide]
      | some req =>
        simpa [himm, hbind] using renderPatchResult_ne_invalidID
          (patchItem repo now id req).1

theorem patchItem_fetch_notFound {repo : Repo} {now : Nat} {id : Int}
    {req : UpdateItemRequest} (hpos : 0 < id)
    (hfind : repo.findByID id = RepoResult.notFound) :
    patchItem repo now id req =
      (Except.error GoErr.notFoundErr, [RepoEvent.fetch id]) := by
  unfold patchItem
  rw [if_neg (by omega), hfind]

theorem patchItem_fetch_failure {repo : Repo} {now : Nat} {id : Int}
    {req : UpdateItemRequest} (hpos : 0 < id)
    (hfind : repo.findByID id = RepoResult.failure) :
    patchItem repo now id req =
      (Except.error (GoErr.internalErr (toL "failed to retrieve item")),
       [RepoEvent.fetch id]) := by
  unfold patchItem
  rw [if_neg (by omega), hfind]

theorem patchItem_validationFail {repo : Repo} {now : Nat} {id : Int}
    {req : UpdateItemRequest} {item0 : Item} {e : Str} {rest : List Str}
    (hpos : 0 < id) (hfind : repo.findByID id = RepoResult.ok item0)
    (hval : validateUpdateRequest req (applyPatch req item0 now) = e :: rest) :
    patchItem repo now id req =
      (Except.error (GoErr.validation (wrapValidation (e :: rest))),
       [RepoEvent.fetch id]) := by
  unfold patchItem
  rw [if_neg (by omega), hfind]
  simp only [hval]

theorem patchItem_validationOk {repo : Repo} {now : Nat} {id : Int}
    {req : UpdateItemRequest} {item0 : Item}
    (hpos : 0 < id) (hfind : repo.findByID id = RepoResult.ok item0)
    (hval : validateUpdateRequest req (applyPatch req item0 now) = []) :
    patchItem repo now id req =
      (match repo.update (applyPatch req item0 now) with
       | RepoResult.notFound =>
         (Except.error GoErr.notFoundErr,
          [RepoEvent.fetch id, RepoEvent.store (applyPatch req item0 now)])
       | RepoResult.failure =>
         (Except.error (GoErr.internalErr (toL "failed to update item")),
          [RepoEvent.fetch id, RepoEvent.store (applyPatch req item0 now)])
       | RepoResult.ok updated =>
         (Except.ok updated,
          [RepoEvent.fetch id, RepoEvent.store (applyPatch req item0 now)])) := by
  unfold patchItem
  rw [if_neg (by omega), hfind]
  simp only [hval]

/-- Once the id parses, the body decodes to an object, no protected key
is present and the typed binding succeeds, the handler is the rendered
usecase call. -/
theorem handler_to_usecase {repo : Repo} {now : Nat}
    {iter : List (Str × Str)} {idStr : Str} {fields : List (Str × JSON)}
    {id : Int} {req : UpdateItemRequest}
    (hperm : iter.Perm immutableFieldsList)
    (hid : parseItemID idStr = some id)
    (h1 : hasKey fields (toL "id") = false)
    (h2 : hasKey fields (toL "created_at") = false)
    (h3 : hasKey fields (toL "updated_at") = false)
    (hbind : bindUpdateItemRequest fields = some req) :
    handlerPatchItem repo now iter idStr (some (JSON.obj fields)) =
      (renderPatchResult (patchItem repo now id req).1,
       (patchItem repo now id req).2) := by
  have himm := checkImmutable_eq_nil hperm h1 h2 h3
  simp only [handlerPatchItem, hid, decodeBodyMap, himm, hbind]

theorem specName_mem_req {req : UpdateItemRequest} {v : Str}
    (hv : req.name = some v) :
    (toL "name is required" ∈ specNameViolations req) ↔ v = [] := by
  by_cases h0 : v = []
  · simp [specNameViolations, hv, h0]
  · by_cases hl : 100 < v.length <;>
      simp [specNameViolations, hv, h0, hl,
        show toL "name is required" ≠
          toL "name must be 100 characters or less" from by decide]

theorem specName_mem_len {req : UpdateItemRequest} {v : Str}
    (hv : req.name = some v) :
    (toL "name must be 100 characters or less" ∈ specNameViolations req) ↔
      100 < v.length := by
  by_cases h0 : v = []
  · subst h0
    simp [specNameViolations, hv,
      show toL "name must be 100 characters or less" ≠
        toL "name is required" from by decide]
  · by_cases hl : 100 < v.length <;> simp [specNameViolations, hv, h0, hl]

theorem specBrand_mem_req {req : UpdateItemRequest} {v : Str}
    (hv : req.brand = some v) :
    (toL "brand is required" ∈ specBrandViolations req) ↔ v = [] := by
  by_cases h0 : v = []
  · simp [specBrandViolations, hv, h0]
  · by_cases hl : 100 < v.length <;>
      simp [specBrandViolations, hv, h0, hl,
        show toL "brand is required" ≠
          toL "brand must be 100 characters or less" from by decide]

theorem specBrand_mem_len {req : UpdateItemRequest} {v : Str}
    (hv : req.brand = some v) :
    (toL "brand must be 100 characters or less" ∈ specBrandViolations req) ↔
      100 < v.length := by
  by_cases h0 : v = []
  · subst h0
    simp [specBrandViolations, hv,
      show toL "brand must be 100 characters or less" ≠
        toL "brand is required" from by decide]
  · by_cases hl : 100 < v.length <;> simp [specBrandViolations, hv, h0, hl]

theorem mem_specNameViolations {m : Str} {req : UpdateItemRequest}
    (h : m ∈ specNameViolations req) :
    m = toL "name is required" ∨
      m = toL "name must be 100 characters or less" := by
  cases hn : req.name with
  | none => simp [specNameViolations, hn] at h
  | some v =>
    simp only [specNameViolations, hn] at h
    split at h
    · simp_all
    · split at h
      · simp_all
      · simp at h

theorem mem_specBrandViolations {m : Str} {req : UpdateItemRequest}
    (h : m ∈ specBrandViolations req) :
    m = toL "brand is required" ∨
      m = toL "brand must be 100 characters or less" := by
  cases hb : req.brand with
  | none => simp [specBrandViolations, hb] at h
  | some v =>
    simp only [specBrandViolations, hb] at h
    split at h
    · simp_all
    · split at h
      · simp_all
      · simp at h

theorem mem_specPriceViolations {m : Str} {req : UpdateItemRequest}
    (h : m ∈ specPriceViolations req) :
    m = toL "purchase_price must be >= 0" := by
  cases hp : req.purchasePrice with
  | none => simp [specPriceViolations, hp] at h
  | some v =>
    simp only [specPriceViolations, hp] at h
    split at h
    · simp_all
    · simp at h

theorem validate_name_required_iff {req : UpdateItemRequest} {item : Item}
    {now : Nat} {v : Str} (hv : req.name = some v) :
    (toL "name is required" ∈
      validateUpdateRequest req (applyPatch req item now)) ↔ v = [] := by
  rw [validate_applyPatch]
  simp only [List.mem_append, or_assoc]
  constructor
  · rintro (h | h | h)
    · exact (specName_mem_req hv).mp h
    · rcases mem_specBrandViolations h with h' | h' <;>
        exact absurd h' (by decide)
    · exact absurd (mem_specPriceViolations h) (by decide)
  · intro h0
    exact Or.inl ((specName_mem_req hv).mpr h0)

theorem validate_name_len_iff {req : UpdateItemRequest} {item : Item}
    {now : Nat} {v : Str} (hv : req.name = some v) :
    (toL "name must be 100 characters or less" ∈
      validateUpdateRequest req (applyPatch req item now)) ↔
      100 < v.length := by
  rw [validate_applyPatch]
  simp only [List.mem_append, or_assoc]
  constructor
  · rintro (h | h | h)
    · exact (specName_mem_len hv).mp h
    · rcases mem_specBrandViolations h with h' | h' <;>
        exact absurd h' (by decide)
    · exact absurd (mem_specPriceViolations h) (by decide)
  · intro h0
    exact Or.inl ((specName_mem_len hv).mpr h0)

theorem validate_brand_required_iff {req : UpdateItemRequest} {item : Item}
    {now : Nat} {v : Str} (hv : req.brand = some v) :
    (toL "brand is required" ∈
      validateUpdateRequest req (applyPatch req item now)) ↔ v = [] := by
  rw [validate_applyPatch]
  simp only [List.mem_append, or_assoc]
  constructor
  · rintro (h | h | h)
    · rcases mem_specNameViolations h with h' | h' <;>
        exact absurd h' (by decide)
    · exact (specBrand_mem_req hv).mp h
    · exact absurd (mem_specPriceViolations h) (by decide)
  · intro h0
    exact Or.inr (Or.inl ((specBrand_mem_req hv).mpr h0))

theorem validate_brand_len_iff {req : UpdateItemRequest} {item : Item}
    {now : Nat} {v : Str} (hv : req.brand = some v) :
    (toL "brand must be 100 characters or less" ∈
      validateUpdateRequest req (applyPatch req item now)) ↔
      100 < v.length := by
  rw [validate_applyPatch]
  simp only [List.mem_append, or_assoc]
  constructor
  · rintro (h | h | h)
    · rcases mem_specNameViolations h with h' | h' <;>
        exact absurd h' (by decide)
    · exact (specBrand_mem_len hv).mp h
    · exact absurd (mem_specPriceViolations h) (by decide)
  · intro h0
    exact Or.inr (Or.inl ((specBrand_mem_len hv).mpr h0))

/-! ### Claim theorems -/

/-- C10: for every non-empty reason list produced by
`validateUpdateRequest`, wrapping it as `"invalid input: <messages
joined by comma-space>"` in `PatchItem` and re-splitting it in the
controller's `parseValidationErrorDetails` yields exactly the original
list in the original order. -/
theorem patchC10_roundTrip (req : UpdateItemRequest) (item : Item)
    (hne : validateUpdateRequest req item ≠ []) :
    parseValidationErrorDetails
        (wrapValidation (validateUpdateRequest req item)) =
      validateUpdateRequest req item :=
  roundTrip_validation _ hne (validate_msgs_mem req item)

theorem patchC10_witness :
    validateUpdateRequest ⟨some [], some (toL "B"), none⟩ wBadItem ≠ [] ∧
    parseValidationErrorDetails
        (wrapValidation
          (validateUpdateRequest ⟨some [], some (toL "B"), none⟩ wBadItem)) =
      validateUpdateRequest ⟨some [], some (toL "B"), none⟩ wBadItem :=
  ⟨by decide, patchC10_roundTrip _ _ (by decide)⟩

/-- C4: when `name` (resp. `brand`) is present, validation emits
`"<field> is required"` exactly when the supplied value is empty and
`"<field> must be 100 characters or less"` exactly when it is longer
than 100 characters; a present value that is neither empty nor over the
limit yields no name/brand violation. -/
theorem patchC4_name_brand_rules (item : Item) (req : UpdateItemRequest)
    (now : Nat) :
    (∀ v, req.name = some v →
      ((toL "name is required" ∈
          validateUpdateRequest req (applyPatch req item now)) ↔ v = []) ∧
      ((toL "name must be 100 characters or less" ∈
          validateUpdateRequest req (applyPatch req item now)) ↔
        100 < v.length)) ∧
    (∀ v, req.brand = some v →
      ((toL "brand is required" ∈
          validateUpdateRequest req (applyPatch req item now)) ↔ v = []) ∧
      ((toL "brand must be 100 characters or less" ∈
          validateUpdateRequest req (applyPatch req item now)) ↔
        100 < v.length)) :=
  ⟨fun _ hv => ⟨validate_name_required_iff hv, validate_name_len_iff hv⟩,
   fun _ hv => ⟨validate_brand_required_iff hv, validate_brand_len_iff hv⟩⟩

theorem patchC4_witness :
    toL "name is required" ∈
      validateUpdateRequest ⟨some [], none, none⟩
        (applyPatch ⟨some [], none, none⟩ wItem 5) :=
  ((patchC4_name_brand_rules wItem ⟨some [], none, none⟩ 5).1 [] rfl).1.mpr
    rfl

/-- C7: the validator is scoped to present fields (a stored value is
never inspected when its field is absent), evaluates the name, brand,
purchase_price rules in that fixed order without short-circuiting, and a
validation failure is rendered with exactly the collected list as
`details` in discovery order, after one fetch and no persist. -/
theorem patchC7_validator_scope_order (repo : Repo) (now : Nat)
    (iter : List (Str × Str)) (idStr : Str) (fields : List (Str × JSON))
    (id : Int) (item0 : Item) (req : UpdateItemRequest) :
    (validateUpdateRequest req (applyPatch req item0 now) =
      specNameViolations req ++ specBrandViolations req ++
        specPriceViolations req) ∧
    (req.name = none → ∀ x,
      validateUpdateRequest req { item0 with name := x } =
        validateUpdateRequest req item0) ∧
    (req.brand = none → ∀ x,
      validateUpdateRequest req { item0 with brand := x } =
        validateUpdateRequest req item0) ∧
    (req.purchasePrice = none → ∀ x,
      validateUpdateRequest req { item0 with purchasePrice := x } =
        validateUpdateRequest req item0) ∧
    (iter.Perm immutableFieldsList →
      parseItemID idStr = some id → 0 < id →
      repo.findByID id = RepoResult.ok item0 →
      hasKey fields (toL "id") = false →
      hasKey fields (toL "created_at") = false →
      hasKey fields (toL "updated_at") = false →
      bindUpdateItemRequest fields = some req →
      ∀ e rest,
        validateUpdateRequest req (applyPatch req item0 now) = e :: rest →
        handlerPatchItem repo now iter idStr (some (JSON.obj fields)) =
          (HResponse.err 400 ⟨toL "validation failed",
             validateUpdateRequest req (applyPatch req item0 now)⟩,
           [RepoEvent.fetch id])) := by
  refine ⟨validate_applyPatch req item0 now, ?_, ?_, ?_, ?_⟩
  · intro hn x
    simp [validateUpdateRequest, nameCheck, brandCheck, priceCheck, hn]
  · intro hb x
    simp [validateUpdateRequest, nameCheck, brandCheck, priceCheck, hb]
  · intro hp x
    simp [validateUpdateRequest, nameCheck, brandCheck, priceCheck, hp]
  · intro hperm hid hpos hfind h1 h2 h3 hbind e rest hval
    rw [handler_to_usecase hperm hid h1 h2 h3 hbind,
      patchItem_validationFail hpos hfind hval]
    simp only [renderPatchResult]
    rw [roundTrip_validation (e :: rest) (by simp)
      (fun m hm => validate_msgs_mem req (applyPatch req item0 now) m
        (by rw [hval]; exact hm))]
    rw [hval]

theorem patchC7_witness :
    handlerPatchItem wRepo 5 immutableFieldsList (toL "1")
        (some (JSON.obj [(toL "name", JSON.str [])])) =
      (HResponse.err 400
        ⟨toL "validation failed", [toL "name is required"]⟩,
       [RepoEvent.fetch 1]) := by
  have h := (patchC7_validator_scope_order wRepo 5 immutableFieldsList
      (toL "1") [(toL "name", JSON.str [])] 1 wItem
      ⟨some [], none, none⟩).2.2.2.2
      (List.Perm.refl _) (by decide) (by decide) (by decide)
      (by decide) (by decide) (by decide) (by decide)
      (toL "name is required") [] (by decide)
  rw [h]
  decide

/-- C2: any PATCH whose (parsable-id) body is a JSON object containing a
protected key fails with the 400 validation-failed response, and no
storage fetch or update is invoked. -/
theorem patchC2_guard_no_side_effects (repo : Repo) (now : Nat)
    (iter : List (Str × Str)) (idStr : Str) (fields : List (Str × JSON))
    (id : Int)
    (hperm : iter.Perm immutableFieldsList)
    (hid : parseItemID idStr = some id)
    (hkey : hasKey fields (toL "id") = true ∨
            hasKey fields (toL "created_at") = true ∨
            hasKey fields (toL "updated_at") = true) :
    ∃ details, details ≠ [] ∧
      handlerPatchItem repo now iter idStr (some (JSON.obj fields)) =
        (HResponse.err 400 ⟨toL "validation failed", details⟩, []) := by
  have hne : checkImmutableFields iter fields ≠ [] := by
    rcases hkey with h | h | h
    · exact checkImmutable_ne_nil hperm
        (show (toL "id", toL "id is immutable") ∈ immutableFieldsList from
          by decide) h
    · exact checkImmutable_ne_nil hperm
        (show (toL "created_at", toL "created_at is immutable") ∈
            immutableFieldsList from by decide) h
    · exact checkImmutable_ne_nil hperm
        (show (toL "updated_at", toL "updated_at is immutable") ∈
            immutableFieldsList from by decide) h
  cases himm : checkImmutableFields iter fields with
  | nil => exact absurd himm hne
  | cons e rest =>
    refine ⟨e :: rest, by simp, ?_⟩
    simp only [handlerPatchItem, hid, decodeBodyMap, himm]

theorem patchC2_witness :
    ∃ details, details ≠ [] ∧
      handlerPatchItem trivialRepo 0 immutableFieldsList (toL "1")
          (some (JSON.obj [(toL "id", JSON.num 999)])) =
        (HResponse.err 400 ⟨toL "validation failed", details⟩, []) :=
  patchC2_guard_no_side_effects trivialRepo 0 immutableFieldsList (toL "1")
    [(toL "id", JSON.num 999)] 1 (List.Perm.refl _) (by decide)
    (Or.inl (by decide))

/-- C8: the immutable-field guard inspects the raw decoded map before
typed binding: every object body with a protected key is answered with
the immutable-field validation failure and no storage call, regardless
of whether the typed binding of the same body would succeed. -/
theorem patchC8_raw_guard_before_binding (repo : Repo) (now : Nat)
    (iter : List (Str × Str)) (idStr : Str) (fields : List (Str × JSON))
    (id : Int)
    (hperm : iter.Perm immutableFieldsList)
    (hid : parseItemID idStr = some id)
    (hkey : hasKey fields (toL "id") = true ∨
            hasKey fields (toL "created_at") = true ∨
            hasKey fields (toL "updated_at") = true) :
    handlerPatchItem repo now iter idStr (some (JSON.obj fields)) =
      (HResponse.err 400 ⟨toL "validation failed",
         checkImmutableFields iter fields⟩, []) := by
  have hne : checkImmutableFields iter fields ≠ [] := by
    rcases hkey with h | h | h
    · exact checkImmutable_ne_nil hperm
        (show (toL "id", toL "id is immutable") ∈ immutableFieldsList from
          by decide) h
    · exact checkImmutable_ne_nil hperm
        (show (toL "created_at", toL "created_at is immutable") ∈
            immutableFieldsList from by decide) h
    · exact checkImmutable_ne_nil hperm
        (show (toL "updated_at", toL "updated_at is immutable") ∈
            immutableFieldsList from by decide) h
  cases himm : checkImmutableFields iter fields with
  | nil => exact absurd himm hne
  | cons e rest => simp only [handlerPatchItem, hid, decodeBodyMap, himm]

theorem patchC8_witness :
    bindUpdateItemRequest
        [(toL "id", JSON.num 1), (toL "name", JSON.num 5)] = none ∧
    handlerPatchItem trivialRepo 0 immutableFieldsList (toL "1")
        (some (JSON.obj [(toL "id", JSON.num 1), (toL "name", JSON.num 5)])) =
      (HResponse.err 400 ⟨toL "validation failed",
         checkImmutableFields immutableFieldsList
           [(toL "id", JSON.num 1), (toL "name", JSON.num 5)]⟩, []) :=
  ⟨by decide,
   patchC8_raw_guard_before_binding trivialRepo 0 immutableFieldsList
     (toL "1") [(toL "id", JSON.num 1), (toL "name", JSON.num 5)] 1
     (List.Perm.refl _) (by decide) (Or.inl (by decide))⟩

/-- C6: a successful PATCH hands storage, and returns in the 200
response, exactly the fetched snapshot with the present mutable fields
overwritten and `updated_at` refreshed; absent mutable fields and all
other fields are unchanged.  The empty body is the instance with nothing
present. -/
theorem patchC6_merge_frame (repo : Repo) (now : Nat)
    (iter : List (Str × Str)) (idStr : Str) (fields : List (Str × JSON))
    (id : Int) (item0 : Item) (req : UpdateItemRequest)
    (hperm : iter.Perm immutableFieldsList)
    (hid : parseItemID idStr = some id) (hpos : 0 < id)
    (hfind : repo.findByID id = RepoResult.ok item0)
    (hupd : ∀ it, repo.update it = RepoResult.ok it)
    (h1 : hasKey fields (toL "id") = false)
    (h2 : hasKey fields (toL "created_at") = false)
    (h3 : hasKey fields (toL "updated_at") = false)
    (hbind : bindUpdateItemRequest fields = some req)
    (hval : validateUpdateRequest req (applyPatch req item0 now) = []) :
    handlerPatchItem repo now iter idStr (some (JSON.obj fields)) =
      (HResponse.ok 200 (applyPatch req item0 now),
       [RepoEvent.fetch id, RepoEvent.store (applyPatch req item0 now)]) ∧
    (applyPatch req item0 now).id = item0.id ∧
    (applyPatch req item0 now).category = item0.category ∧
    (applyPatch req item0 now).purchaseDate = item0.purchaseDate ∧
    (applyPatch req item0 now).createdAt = item0.createdAt ∧
    (applyPatch req item0 now).updatedAt = now ∧
    (req.name = none → (applyPatch req item0 now).name = item0.name) ∧
    (∀ v, req.name = some v → (applyPatch req item0 now).name = v) ∧
    (req.brand = none → (applyPatch req item0 now).brand = item0.brand) ∧
    (∀ v, req.brand = some v → (applyPatch req item0 now).brand = v) ∧
    (req.purchasePrice = none →
      (applyPatch req item0 now).purchasePrice = item0.purchasePrice) ∧
    (∀ v, req.purchasePrice = some v →
      (applyPatch req item0 now).purchasePrice = v) := by
  refine ⟨?_, rfl, rfl, rfl, rfl, rfl, ?_, ?_, ?_, ?_, ?_, ?_⟩
  · rw [handler_to_usecase hperm hid h1 h2 h3 hbind,
      patchItem_validationOk hpos hfind hval, hupd]
    rfl
  · intro hn; simp [applyPatch, hn]
  · intro v hv; simp [applyPatch, hv]
  · intro hb; simp [applyPatch, hb]
  · intro v hv; simp [applyPatch, hv]
  · intro hp; simp [applyPatch, hp]
  · intro v hv; simp [applyPatch, hv]

theorem patchC6_witness :
    handlerPatchItem wRepo 5 immutableFieldsList (toL "1")
        (some (JSON.obj [])) =
      (HResponse.ok 200 (applyPatch ⟨none, none, none⟩ wItem 5),
       [RepoEvent.fetch 1,
        RepoEvent.store (applyPatch ⟨none, none, none⟩ wItem 5)]) ∧
    (applyPatch ⟨none, none, none⟩ wItem 5).updatedAt = 5 ∧
    (applyPatch ⟨none, none, none⟩ wItem 5).name = wItem.name := by
  have h := patchC6_merge_frame wRepo 5 immutableFieldsList (toL "1") [] 1
    wItem ⟨none, none, none⟩ (List.Perm.refl _) (by decide) (by decide)
    (by decide) (fun it => rfl) (by decide) (by decide) (by decide)
    (by decide) (by decide)
  exact ⟨h.1, h.2.2.2.2.2.1, h.2.2.2.2.2.2.1 rfl⟩

/-- C9: once the request reaches the usecase, a not-found outcome of the
fetch or of the persist step is answered 404 `item not found`, and any
other failure of those steps is answered 500 with the fixed
`failed to update item` body and no further detail. -/
theorem patchC9_fetch_persist_translation (repo : Repo) (now : Nat)
    (iter : List (Str × Str)) (idStr : Str) (fields : List (Str × JSON))
    (id : Int) (req : UpdateItemRequest)
    (hperm : iter.Perm immutableFieldsList)
    (hid : parseItemID idStr = some id) (hpos : 0 < id)
    (h1 : hasKey fields (toL "id") = false)
    (h2 : hasKey fields (toL "created_at") = false)
    (h3 : hasKey fields (toL "updated_at") = false)
    (hbind : bindUpdateItemRequest fields = some req) :
    (repo.findByID id = RepoResult.notFound →
      handlerPatchItem repo now iter idStr (some (JSON.obj fields)) =
        (HResponse.err 404 ⟨toL "item not found", []⟩,
         [RepoEvent.fetch id])) ∧
    (repo.findByID id = RepoResult.failure →
      handlerPatchItem repo now iter idStr (some (JSON.obj fields)) =
        (HResponse.err 500 ⟨toL "failed to update item", []⟩,
         [RepoEvent.fetch id])) ∧
    (∀ item0, repo.findByID id = RepoResult.ok item0 →
      validateUpdateRequest req (applyPatch req item0 now) = [] →
      (repo.update (applyPatch req item0 now) = RepoResult.notFound →
        handlerPatchItem repo now iter idStr (some (JSON.obj fields)) =
          (HResponse.err 404 ⟨toL "item not found", []⟩,
           [RepoEvent.fetch id,
            RepoEvent.store (applyPatch req item0 now)])) ∧
      (repo.update (applyPatch req item0 now) = RepoResult.failure →
        handlerPatchItem repo now iter idStr (some (JSON.obj fields)) =
          (HResponse.err 500 ⟨toL "failed to update item", []⟩,
           [RepoEvent.fetch id,
            RepoEvent.store (applyPatch req item0 now)]))) := by
  refine ⟨?_, ?_, ?_⟩
  · intro hfind
    rw [handler_to_usecase hperm hid h1 h2 h3 hbind,
      patchItem_fetch_notFound hpos hfind]
    rfl
  · intro hfind
    rw [handler_to_usecase hperm hid h1 h2 h3 hbind,
      patchItem_fetch_failure hpos hfind]
    rfl
  · intro item0 hfind hval
    constructor
    · intro hup
      rw [handler_to_usecase hperm hid h1 h2 h3 hbind,
        patchItem_validationOk hpos hfind hval, hup]
      rfl
    · intro hup
      rw [handler_to_usecase hperm hid h1 h2 h3 hbind,
        patchItem_validationOk hpos hfind hval, hup]
      rfl

theorem patchC9_witness :
    handlerPatchItem failRepo 5 immutableFieldsList (toL "1")
        (some (JSON.obj [])) =
      (HResponse.err 500 ⟨toL "failed to update item", []⟩,
       [RepoEvent.fetch 1,
        RepoEvent.store (applyPatch ⟨none, none, none⟩ wItem 5)]) :=
  ((patchC9_fetch_persist_translation failRepo 5 immutableFieldsList
      (toL "1") [] 1 ⟨none, none, none⟩ (List.Perm.refl _) (by decide)
      (by decide) (by decide) (by decide) (by decide) (by decide)).2.2
    wItem (by decide) (by decide)).2 (by decide)

/-- C5 (amended): the request is answered `invalid item ID` — with the
body never examined and no storage call — exactly when the path
identifier is not an optionally signed base-10 numeral fitting a signed
64-bit integer; every identifier that is one proceeds past the check. -/
theorem patchC5_amended (repo : Repo) (now : Nat) (iter : List (Str × Str))
    (idStr : Str) :
    (isBase10Int64 idStr = false →
      ∀ body, handlerPatchItem repo now iter idStr body =
        (HResponse.err 400 ⟨toL "invalid item ID", []⟩, [])) ∧
    (isBase10Int64 idStr = true →
      ∀ body, (handlerPatchItem repo now iter idStr body).1 ≠
        HResponse.err 400 ⟨toL "invalid item ID", []⟩) := by
  constructor
  · intro hfalse body
    have hnone : parseItemID idStr = none := by
      cases h : parseItemID idStr with
      | none => rfl
      | some v =>
        have hs := parseItemID_isSome idStr
        rw [h, hfalse] at hs
        simp at hs
    simp [handlerPatchItem, hnone]
  · intro htrue body
    have hsome : (parseItemID idStr).isSome = true := by
      rw [parseItemID_isSome, htrue]
    obtain ⟨id, hid⟩ := Option.isSome_iff_exists.mp hsome
    exact handler_ne_invalidID hid

theorem patchC5_witness :
    handlerPatchItem trivialRepo 0 immutableFieldsList (toL "abc")
        (some (JSON.obj [])) =
      (HResponse.err 400 ⟨toL "invalid item ID", []⟩, []) :=
  (patchC5_amended trivialRepo 0 immutableFieldsList (toL "abc")).1
    (by decide) (some (JSON.obj []))

/-- C5 (counterexample): `9223372036854775808` is a base-10 integer
(non-empty, all digits) yet the request is answered `invalid item ID`,
because `strconv.ParseInt` enforces the signed 64-bit range. -/
theorem patchC5_counterexample :
    toL "9223372036854775808" ≠ [] ∧
    (toL "9223372036854775808").all Char.isDigit = true ∧
    (handlerPatchItem trivialRepo 0 immutableFieldsList
        (toL "9223372036854775808")
        (some (JSON.obj [(toL "name", JSON.str (toL "x"))]))).1 =
      HResponse.err 400 ⟨toL "invalid item ID", []⟩ :=
  ⟨by decide, by decide, by decide⟩

/-- C1: `checkImmutableFields` ranges over a Go map, whose iteration
order is unspecified; the order visiting `created_at` before `id` is a
permutation of the map's entries and yields the details in the opposite
of the declaration order, so the response is not deterministic across
runs, contradicting the claim and the repository's own tests. -/
theorem patchC1_map_iteration_nondeterminism :
    List.Perm c1AltIter immutableFieldsList ∧
    (handlerPatchItem trivialRepo 0 c1AltIter (toL "1")
        (some (JSON.obj c1Body))).1 =
      HResponse.err 400 ⟨toL "validation failed",
        [toL "created_at is immutable", toL "id is immutable"]⟩ ∧
    (handlerPatchItem trivialRepo 0 immutableFieldsList (toL "1")
        (some (JSON.obj c1Body))).1 =
      HResponse.err 400 ⟨toL "validation failed",
        [toL "id is immutable", toL "created_at is immutable"]⟩ ∧
    [toL "created_at is immutable", toL "id is immutable"] ≠
      [toL "id is immutable", toL "created_at is immutable"] :=
  ⟨List.Perm.swap _ _ _, by decide, by decide, by decide⟩

end AiconPatch
